import Mathlib

/-!
Comment service: shallow embedding of `main.go`.

The program is one `main` function: it creates a document-store client, makes
sure the index `comment` exists, and registers two JSON handlers
(`POST /comment`, `GET /search`) and a landing page.

The document store, the clock, the form/query parsing of the HTTP layer and
`json.Unmarshal` are external to the program.  They are parameters of the
embedding.  Every effect the program performs (a store call, a decode of a hit,
a `c.JSON` write, a `log.Fatalf`, a route registration) is recorded, in program
order, as an `Event`, so that "how many calls", "what was written" and "what
happened first" are statements about a list.

Assumptions about library behaviour used by the embedding:
* `c.PostForm k` / `c.Query k` return the first value bound to `k`, or `""`.
* `fmt.Sprintf("...: %s", err)` is the prefix followed by `err.Error()`.
* `encoding/json` renders a nil slice as `null` and a non-nil slice as an array.
* `log.Fatalf` ends the process: nothing after it runs.
* dereferencing a nil pointer panics; the handler stops there.  The router is
  `gin.Default()`, whose recovery middleware answers a panicking handler with a
  bare status 500.
* a store call that returns no error returns a non-nil result record; the
  pointers inside a search result (`Hits`, and each entry of `Hits.Hits`) may
  still be nil, since they are filled from the store's reply.
-/

namespace Comments

/-! ## Constants -/

/-- Source constant `elasticIndexName`. -/
def elasticIndexName : String := "comment"

/-- Source constant `elasticTypeName`. -/
def elasticTypeName : String := "comment"

/-- Value of `http.StatusOK`. -/
def StatusOK : Nat := 200

/-- Value of `http.StatusCreated`. -/
def StatusCreated : Nat := 201

/-- Value of `http.StatusInternalServerError`. -/
def StatusInternalServerError : Nat := 500

/-! ## Data model -/

/-- A `time.Time` value.  The program only carries timestamps around and hands
them to the JSON encoder, which emits their RFC 3339 text; the value is
represented by that text. -/
structure Time where
  rfc3339 : String
deriving DecidableEq, Repr

/-- Source type `Comment`. -/
structure Comment where
  Name : String
  Content : String
  CreatedAt : Time
deriving DecidableEq, Repr

/-- A Go slice value: `none` is the nil slice, `some xs` a non-nil slice with
elements `xs` (possibly none). -/
abbrev Slice (α : Type) := Option (List α)

/-- Go `append(s, x)`: appending to the nil slice allocates a one-element
slice. -/
def Slice.append {α : Type} : Slice α → α → Slice α
  | none, x => some [x]
  | some xs, x => some (xs ++ [x])

/-- JSON documents as written on the wire. -/
inductive JSON where
  | null
  | str (s : String)
  | arr (xs : List JSON)
  | obj (kvs : List (String × JSON))

/-- The values this program stores in a `gin.H` (a `map[string]interface{}`):
a string or a `[]Comment`. -/
inductive Value where
  | string (s : String)
  | comments (cs : Slice Comment)
deriving DecidableEq, Repr

/-- A `gin.H` literal, as its list of entries. -/
abbrev H := List (String × Value)

/-- JSON encoding of a `Comment`, following its struct tags. -/
def Comment.marshal (c : Comment) : JSON :=
  .obj [("name", .str c.Name), ("content", .str c.Content),
        ("created_at", .str c.CreatedAt.rfc3339)]

/-- JSON encoding of a `gin.H` entry value.  A nil slice encodes as `null`, a
non-nil slice as an array. -/
def Value.marshal : Value → JSON
  | .string s => .str s
  | .comments none => .null
  | .comments (some cs) => .arr (cs.map Comment.marshal)

/-- JSON encoding of a `gin.H`.  Every map this program builds has exactly one
key, so the encoder's key sorting does not show. -/
def H.marshal (h : H) : JSON :=
  .obj (h.map fun kv => (kv.1, kv.2.marshal))

/-! ## HTTP request context -/

/-- The part of `gin.Context` the handlers read: the parsed POST form and the
parsed URL query, as key/value pairs in arrival order. -/
structure Context where
  form : List (String × String)
  query : List (String × String)
deriving DecidableEq, Repr

/-- Gin `c.PostForm(key)`: first value of the key in the form, else `""`. -/
def Context.PostForm (c : Context) (key : String) : String :=
  (c.form.lookup key).getD ""

/-- Gin `c.Query(key)`: first value of the key in the URL query, else `""`. -/
def Context.Query (c : Context) (key : String) : String :=
  (c.query.lookup key).getD ""

/-! ## Document store -/

/-- The `elastic.MultiMatchQuery` built by `elastic.NewMultiMatchQuery`. -/
structure MultiMatchQuery where
  text : String
  fields : List String
deriving DecidableEq, Repr

/-- Library constructor `elastic.NewMultiMatchQuery(text, fields...)`. -/
def NewMultiMatchQuery (text : String) (fields : List String) : MultiMatchQuery :=
  ⟨text, fields⟩

/-- A `json.RawMessage`: the undecoded payload of a hit. -/
abbrev RawMessage := String

/-- The field of `elastic.SearchHit` the program reads. -/
structure SearchHit where
  Source : RawMessage
deriving DecidableEq, Repr

/-- The field of `elastic.SearchHits` the program reads.  `Hits` is a
`[]*SearchHit`: each entry is a pointer, `none` when it is nil. -/
structure SearchHits where
  Hits : List (Option SearchHit)
deriving DecidableEq, Repr

/-- The field of `elastic.SearchResult` the program reads.  `Hits` is a
`*SearchHits`, `none` when it is nil (a reply without a `hits` key). -/
structure SearchResult where
  Hits : Option SearchHits
deriving DecidableEq, Repr

/-- The search result that carries the given hits: a hits record whose entries
are all non-nil. -/
def SearchResult.ofHits (hits : List SearchHit) : SearchResult :=
  ⟨some ⟨hits.map some⟩⟩

/-- The field of `elastic.IndicesCreateResult` the program reads. -/
structure IndicesCreateResult where
  Acknowledged : Bool
deriving DecidableEq, Repr

/-- The document store behind the client, over a state space `σ`.  An error is
represented by its `Error()` text.  `IndexExists` and `Search` are reads and
have no successor state; `CreateIndex` and `Index` return the successor state.
The response body of `Index` is dropped by the program (`_, err := ...`), so
only the error is kept. -/
structure Store (σ : Type) where
  IndexExists : σ → String → Except String Bool
  CreateIndex : σ → String → Except String IndicesCreateResult × σ
  Index : σ → String → String → Comment → Option String × σ
  Search : σ → String → String → MultiMatchQuery → Except String SearchResult

/-! ## Effects -/

/-- One observable step of the program, in program order. -/
inductive Event where
  | newClient (url : String)
  | indexExists (index : String)
  | createIndex (index : String)
  | indexDoc (index typ : String) (doc : Comment)
  | search (index typ : String) (q : MultiMatchQuery)
  | unmarshal (source : RawMessage)
  | json (code : Nat) (body : H)
  | fatal (msg : String)
  | route (method path : String)
  | loadHTMLGlob (pattern : String)
  | panic (msg : String)
  | run (addr : String)
deriving DecidableEq, Repr

/-- A create-index call. -/
def Event.isCreateIndex : Event → Bool
  | .createIndex _ => true
  | _ => false

/-- An existence check. -/
def Event.isIndexExists : Event → Bool
  | .indexExists _ => true
  | _ => false

/-- A step that makes HTTP routes available: registration or `router.Run`. -/
def Event.isServing : Event → Bool
  | .route _ _ | .run _ => true
  | _ => false

/-- The response a `c.JSON` event puts on the wire: status and encoded body. -/
def Event.response : Event → Option (Nat × JSON)
  | .json code body => some (code, body.marshal)
  | _ => none

/-- The `gin.H` values written by `c.JSON`, with their status codes. -/
def written (es : List Event) : List (Nat × H) :=
  es.filterMap fun e => match e with
    | .json code body => some (code, body)
    | _ => none

/-- The text of the Go runtime error raised by a nil pointer dereference. -/
def nilDereference : String :=
  "runtime error: invalid memory address or nil pointer dereference"

/-- All responses put on the wire, in order. -/
def responses (es : List Event) : List (Nat × JSON) :=
  es.filterMap Event.response

/-- All payloads handed to `json.Unmarshal`, in order. -/
def decoded (es : List Event) : List RawMessage :=
  es.filterMap fun e => match e with
    | .unmarshal src => some src
    | _ => none

/-- Outcome of running effectful code against the store: the events, in order,
and the store state afterwards. -/
structure Run (σ : Type) where
  events : List Event
  store : σ

/-- The message of the first `log.Fatalf` among the events, if any. -/
def fatalMsg (es : List Event) : Option String :=
  es.findSome? fun e => match e with
    | .fatal msg => some msg
    | _ => none

/-! ## The program -/

/-- Lines 40-55 of `main`: check that the index exists and create it when it
does not.  A `fatal` event is a `log.Fatalf`; it is always the last event. -/
def bootstrap {σ : Type} (S : Store σ) (s : σ) : Run σ :=
  match S.IndexExists s elasticIndexName with
  | .error err =>
    ⟨[.indexExists elasticIndexName,
      .fatal ("Error checking if index exists: " ++ err)], s⟩
  | .ok found =>
    if !found then
      match S.CreateIndex s elasticIndexName with
      | (.error err, s') =>
        ⟨[.indexExists elasticIndexName, .createIndex elasticIndexName,
          .fatal ("Error creating index: " ++ err)], s'⟩
      | (.ok createIndex, s') =>
        if !createIndex.Acknowledged then
          ⟨[.indexExists elasticIndexName, .createIndex elasticIndexName,
            .fatal "Index creation not acknowledged"], s'⟩
        else
          ⟨[.indexExists elasticIndexName, .createIndex elasticIndexName], s'⟩
    else
      ⟨[.indexExists elasticIndexName], s⟩

/-- Lines 59-75: the handler registered for `POST /comment`.  `now` is the
value `time.Now()` returns when the handler runs. -/
def postCommentHandler {σ : Type} (S : Store σ) (now : Time) (c : Context) (s : σ) :
    Run σ :=
  let name := c.PostForm "name"
  let content := c.PostForm "content"
  let comment : Comment := { Name := name, Content := content, CreatedAt := now }
  match S.Index s elasticIndexName elasticTypeName comment with
  | (some err, s') =>
    ⟨[.indexDoc elasticIndexName elasticTypeName comment,
      .json StatusInternalServerError
        [("error", .string ("Error indexing comment: " ++ err))]], s'⟩
  | (none, s') =>
    ⟨[.indexDoc elasticIndexName elasticTypeName comment,
      .json StatusCreated [("result", .string "Comment added")]], s'⟩

/-- Lines 92-102: the loop over the hits, followed by the success response.
`comments` is the slice accumulated so far; `unmarshal` is `json.Unmarshal`
into a fresh `Comment`.  Reading `hit.Source` through a nil `hit` panics. -/
def decodeHits (unmarshal : RawMessage → Except String Comment) :
    List (Option SearchHit) → Slice Comment → List Event
  | [], comments => [.json StatusOK [("comments", .comments comments)]]
  | none :: _, _ => [.panic nilDereference]
  | some hit :: rest, comments =>
    match unmarshal hit.Source with
    | .error err =>
      [.unmarshal hit.Source,
       .json StatusInternalServerError
         [("error", .string ("Error unmarshalling search result: " ++ err))]]
    | .ok comment =>
      .unmarshal hit.Source :: decodeHits unmarshal rest (comments.append comment)

/-- Lines 77-103: the handler registered for `GET /search`.  The slice
`comments` starts as the nil slice (`var comments []Comment`).  Reading
`searchResult.Hits.Hits` through a nil `Hits` panics. -/
def searchHandler {σ : Type} (S : Store σ)
    (unmarshal : RawMessage → Except String Comment) (c : Context) (s : σ) : Run σ :=
  let query := c.Query "query"
  let q := NewMultiMatchQuery query ["name", "content", "created_at"]
  match S.Search s elasticIndexName elasticTypeName q with
  | .error err =>
    ⟨[.search elasticIndexName elasticTypeName q,
      .json StatusInternalServerError
        [("error", .string ("Error searching comments: " ++ err))]], s⟩
  | .ok searchResult =>
    match searchResult.Hits with
    | none => ⟨[.search elasticIndexName elasticTypeName q, .panic nilDereference], s⟩
    | some hits =>
      ⟨.search elasticIndexName elasticTypeName q :: decodeHits unmarshal hits.Hits none, s⟩

/-- The whole of `main`, up to the point where `router.Run` takes over.
`newClient` is the error of `elastic.NewClient` (`none` when it succeeds) and
`templates` the error of loading `templates/*` (`LoadHTMLGlob` panics on it).
After a `log.Fatalf` nothing else runs. -/
def main {σ : Type} (S : Store σ) (newClient : Option String) (templates : Option String)
    (s : σ) : Run σ :=
  match newClient with
  | some err =>
    ⟨[.newClient "http://localhost:9200",
      .fatal ("Error creating Elasticsearch client: " ++ err)], s⟩
  | none =>
    let b := bootstrap S s
    match fatalMsg b.events with
    | some _ => ⟨.newClient "http://localhost:9200" :: b.events, b.store⟩
    | none =>
      match templates with
      | some err =>
        ⟨.newClient "http://localhost:9200" :: b.events ++
          [.route "POST" "/comment", .route "GET" "/search",
           .loadHTMLGlob "templates/*", .panic err], b.store⟩
      | none =>
        ⟨.newClient "http://localhost:9200" :: b.events ++
          [.route "POST" "/comment", .route "GET" "/search",
           .loadHTMLGlob "templates/*", .route "GET" "/", .run ":8082"], b.store⟩

/-! ## Concrete stores and decoders used to exercise the program -/

/-- A small in-memory store: the state is the list of existing index names.
Creating an existing index is refused; indexing and searching are not
supported by it and report an error. -/
def listStore : Store (List String) where
  IndexExists := fun s n => .ok (decide (n ∈ s))
  CreateIndex := fun s n =>
    if n ∈ s then (.error "resource_already_exists_exception", s)
    else (.ok ⟨true⟩, n :: s)
  Index := fun s _ _ _ => (some "no available connection", s)
  Search := fun _ _ _ _ => .error "no available connection"

/-- A store whose state is the list of raw documents of the one index.
Indexing a comment is accepted and stores its content text as the raw document;
a search returns every stored document as a hit, in storage order. -/
def rawStore : Store (List RawMessage) where
  IndexExists := fun _ _ => .ok true
  CreateIndex := fun s _ => (.ok ⟨true⟩, s)
  Index := fun s _ _ doc => (none, s ++ [doc.Content])
  Search := fun s _ _ _ => .ok (SearchResult.ofHits (s.map SearchHit.mk))

/-- A store that answers every call with an error. -/
def downStore : Store Unit where
  IndexExists := fun _ _ => .error "connection refused"
  CreateIndex := fun s _ => (.error "connection refused", s)
  Index := fun s _ _ _ => (some "connection refused", s)
  Search := fun _ _ _ _ => .error "connection refused"

/-- A store that accepts a create-index call without acknowledging it. -/
def slowStore : Store Unit where
  IndexExists := fun _ _ => .ok false
  CreateIndex := fun s _ => (.ok ⟨false⟩, s)
  Index := fun s _ _ _ => (none, s)
  Search := fun _ _ _ _ => .ok (SearchResult.ofHits [])

/-- A store without the index that refuses to create it. -/
def readOnlyStore : Store Unit where
  IndexExists := fun _ _ => .ok false
  CreateIndex := fun s _ => (.error "cluster_block_exception", s)
  Index := fun s _ _ _ => (some "cluster_block_exception", s)
  Search := fun _ _ _ _ => .ok (SearchResult.ofHits [])

/-- A toy decoder: the payload `"bad"` is rejected, any other payload decodes
to a comment whose name and content are the payload. -/
def toyUnmarshal (src : RawMessage) : Except String Comment :=
  if src = "bad" then .error "unexpected end of JSON input"
  else .ok { Name := src, Content := src, CreatedAt := ⟨"2024-01-01T00:00:00Z"⟩ }

/-- The query the search handler sends for a request. -/
def searchQuery (c : Context) : MultiMatchQuery :=
  NewMultiMatchQuery (c.Query "query") ["name", "content", "created_at"]

/-- The slice obtained by appending `cs`, one element at a time, to `acc`. -/
def Slice.appendAll {α : Type} (acc : Slice α) (cs : List α) : Slice α :=
  cs.foldl Slice.append acc

/-! ## Auxiliary facts -/

theorem Slice.appendAll_some {α : Type} (xs cs : List α) :
    Slice.appendAll (some xs) cs = some (xs ++ cs) := by
  induction cs generalizing xs with
  | nil => simp [Slice.appendAll]
  | cons c cs ih =>
    have := ih (xs ++ [c])
    simp only [Slice.appendAll, List.foldl_cons, Slice.append] at this ⊢
    simpa using this

theorem Slice.appendAll_nil_slice {α : Type} (cs : List α) :
    Slice.appendAll (none : Slice α) cs = if cs.isEmpty then none else some cs := by
  cases cs with
  | nil => simp [Slice.appendAll]
  | cons c cs =>
    have := Slice.appendAll_some [c] cs
    simp only [Slice.appendAll, List.foldl_cons, Slice.append] at this ⊢
    simpa using this

/-- When every entry is a hit that decodes, the loop decodes each hit once, in
order, and ends with the success response carrying all decoded comments. -/
theorem decodeHits_all_ok (unmarshal : RawMessage → Except String Comment)
    (hits : List SearchHit) (cs : List Comment) (acc : Slice Comment)
    (h : List.Forall₂ (fun hit cm => unmarshal hit.Source = .ok cm) hits cs) :
    decodeHits unmarshal (hits.map some) acc =
      hits.map (fun hit => Event.unmarshal hit.Source) ++
        [.json StatusOK [("comments", .comments (acc.appendAll cs))]] := by
  induction h generalizing acc with
  | nil => simp [decodeHits, Slice.appendAll]
  | cons hd _ ih =>
    simp only [decodeHits, hd, List.map_cons, List.cons_append, Slice.appendAll,
      List.foldl_cons]
    rw [ih]
    rfl

/-- When the hits before `bad` decode and `bad` does not, the loop decodes
those hits and `bad`, writes the error response and stops, whatever follows. -/
theorem decodeHits_first_bad (unmarshal : RawMessage → Except String Comment)
    (pre : List SearchHit) (bad : SearchHit) (post : List (Option SearchHit))
    (err : String) (acc : Slice Comment)
    (hpre : ∀ hit ∈ pre, ∃ cm, unmarshal hit.Source = .ok cm)
    (hbad : unmarshal bad.Source = .error err) :
    decodeHits unmarshal (pre.map some ++ some bad :: post) acc =
      (pre ++ [bad]).map (fun hit => Event.unmarshal hit.Source) ++
        [.json StatusInternalServerError
          [("error", .string ("Error unmarshalling search result: " ++ err))]] := by
  induction pre generalizing acc with
  | nil => simp [decodeHits, hbad]
  | cons p pre ih =>
    obtain ⟨cm, hcm⟩ := hpre p (by simp)
    have ih2 := ih (acc.append cm) (fun hit hh => hpre hit (by simp [hh]))
    simp only [List.map_cons, List.cons_append, decodeHits, hcm]
    exact congrArg _ ih2

/-- When the hits before a nil entry decode, the loop decodes those hits and
panics at the nil entry, whatever follows. -/
theorem decodeHits_nil_entry (unmarshal : RawMessage → Except String Comment)
    (pre : List SearchHit) (post : List (Option SearchHit)) (acc : Slice Comment)
    (hpre : ∀ hit ∈ pre, ∃ cm, unmarshal hit.Source = .ok cm) :
    decodeHits unmarshal (pre.map some ++ none :: post) acc =
      pre.map (fun hit => Event.unmarshal hit.Source) ++ [.panic nilDereference] := by
  induction pre generalizing acc with
  | nil => simp [decodeHits]
  | cons p pre ih =>
    obtain ⟨cm, hcm⟩ := hpre p (by simp)
    have ih2 := ih (acc.append cm) (fun hit hh => hpre hit (by simp [hh]))
    simp only [List.map_cons, List.cons_append, decodeHits, hcm]
    exact congrArg _ ih2

/-- The three ways the loop can run over a list of hit pointers: every entry
is a hit that decodes; or there is a first undecodable hit, reached through
hits that decode; or there is a nil entry, reached through hits that decode. -/
theorem hit_pointers_cases (unmarshal : RawMessage → Except String Comment)
    (ptrs : List (Option SearchHit)) :
    (∃ hits cs, ptrs = hits.map some ∧
        List.Forall₂ (fun hit cm => unmarshal hit.Source = .ok cm) hits cs) ∨
    (∃ (pre : List SearchHit) (bad : SearchHit) (post : List (Option SearchHit))
        (err : String), ptrs = pre.map some ++ some bad :: post ∧
        (∀ hit ∈ pre, ∃ cm, unmarshal hit.Source = .ok cm) ∧
        unmarshal bad.Source = .error err) ∨
    (∃ (pre : List SearchHit) (post : List (Option SearchHit)),
        ptrs = pre.map some ++ none :: post ∧
        (∀ hit ∈ pre, ∃ cm, unmarshal hit.Source = .ok cm)) := by
  induction ptrs with
  | nil => exact Or.inl ⟨[], [], rfl, List.Forall₂.nil⟩
  | cons p ps ih =>
    cases p with
    | none => exact Or.inr (Or.inr ⟨[], ps, rfl, fun _ h => absurd h (List.not_mem_nil _)⟩)
    | some x =>
      cases hx : unmarshal x.Source with
      | error e =>
        exact Or.inr (Or.inl ⟨[], x, ps, e, rfl, fun _ h => absurd h (List.not_mem_nil _), hx⟩)
      | ok cm =>
        have hcons : ∀ pre : List SearchHit,
            (∀ hit ∈ pre, ∃ cm, unmarshal hit.Source = .ok cm) →
            ∀ hit ∈ x :: pre, ∃ cm, unmarshal hit.Source = .ok cm := by
          intro pre hpre hit hmem
          rcases List.mem_cons.mp hmem with rfl | hmem
          · exact ⟨cm, hx⟩
          · exact hpre hit hmem
        rcases ih with ⟨hits, cs, hps, hcs⟩ | ⟨pre, bad, post, e, hps, hpre, hb⟩ |
          ⟨pre, post, hps, hpre⟩
        · exact Or.inl ⟨x :: hits, cm :: cs, by simp [hps], List.Forall₂.cons hx hcs⟩
        · exact Or.inr (Or.inl ⟨x :: pre, bad, post, e, by simp [hps], hcons pre hpre, hb⟩)
        · exact Or.inr (Or.inr ⟨x :: pre, post, by simp [hps], hcons pre hpre⟩)

/-- The two search failure messages differ whatever the embedded error texts. -/
theorem search_error_ne_unmarshal_error (a b : String) :
    "Error searching comments: " ++ a ≠ "Error unmarshalling search result: " ++ b := by
  intro h
  have h2 := congrArg String.data h
  simp [String.data_append] at h2

theorem written_search_cons (q : MultiMatchQuery) (hits : List SearchHit)
    (tl : List Event) :
    written (.search "comment" "comment" q ::
      (hits.map (fun hit => Event.unmarshal hit.Source) ++ tl)) = written tl := by
  simp [written]

theorem responses_search_cons (q : MultiMatchQuery) (hits : List SearchHit)
    (tl : List Event) :
    responses (.search "comment" "comment" q ::
      (hits.map (fun hit => Event.unmarshal hit.Source) ++ tl)) = responses tl := by
  simp [responses, Event.response]

theorem decoded_search_cons (q : MultiMatchQuery) (hits : List SearchHit)
    (tl : List Event) :
    decoded (.search "comment" "comment" q ::
      (hits.map (fun hit => Event.unmarshal hit.Source) ++ tl)) =
      hits.map SearchHit.Source ++ decoded tl := by
  have hmap : ∀ l : List SearchHit,
      decoded (l.map (fun hit => Event.unmarshal hit.Source) ++ tl) =
        l.map SearchHit.Source ++ decoded tl := by
    intro l
    induction l with
    | nil => rfl
    | cons x xs ih => simpa [decoded] using ih
  simpa [decoded] using hmap hits

/-- Events of the search handler when the store search fails. -/
theorem searchHandler_events_error {σ : Type} (S : Store σ)
    (unmarshal : RawMessage → Except String Comment) (c : Context) (s : σ) (err : String)
    (hres : S.Search s "comment" "comment" (searchQuery c) = .error err) :
    (searchHandler S unmarshal c s).events =
      [.search "comment" "comment" (searchQuery c),
       .json 500 [("error", .string ("Error searching comments: " ++ err))]] := by
  have hres2 : S.Search s elasticIndexName elasticTypeName
      (NewMultiMatchQuery (c.Query "query") ["name", "content", "created_at"]) =
        .error err := hres
  simp only [searchHandler, hres2]
  rfl

/-- Events of the search handler when the search result has a nil `Hits`. -/
theorem searchHandler_events_nil_hits {σ : Type} (S : Store σ)
    (unmarshal : RawMessage → Except String Comment) (c : Context) (s : σ)
    (res : SearchResult)
    (hres : S.Search s "comment" "comment" (searchQuery c) = .ok res)
    (hnil : res.Hits = none) :
    (searchHandler S unmarshal c s).events =
      [.search "comment" "comment" (searchQuery c), .panic nilDereference] := by
  have hres2 : S.Search s elasticIndexName elasticTypeName
      (NewMultiMatchQuery (c.Query "query") ["name", "content", "created_at"]) =
        .ok res := hres
  simp only [searchHandler, hres2, hnil]
  rfl

/-- Events of the search handler when the search succeeds with a hits record. -/
theorem searchHandler_events_hits {σ : Type} (S : Store σ)
    (unmarshal : RawMessage → Except String Comment) (c : Context) (s : σ)
    (res : SearchResult) (hs : SearchHits)
    (hres : S.Search s "comment" "comment" (searchQuery c) = .ok res)
    (hhits : res.Hits = some hs) :
    (searchHandler S unmarshal c s).events =
      .search "comment" "comment" (searchQuery c) :: decodeHits unmarshal hs.Hits none := by
  have hres2 : S.Search s elasticIndexName elasticTypeName
      (NewMultiMatchQuery (c.Query "query") ["name", "content", "created_at"]) =
        .ok res := hres
  simp only [searchHandler, hres2, hhits]
  rfl

/-- Events of the search handler when the search succeeds and all hits decode. -/
theorem searchHandler_events_all_ok {σ : Type} (S : Store σ)
    (unmarshal : RawMessage → Except String Comment) (c : Context) (s : σ)
    (hits : List SearchHit) (cs : List Comment)
    (hres : S.Search s "comment" "comment" (searchQuery c) = .ok (SearchResult.ofHits hits))
    (hok : List.Forall₂ (fun hit cm => unmarshal hit.Source = .ok cm) hits cs) :
    (searchHandler S unmarshal c s).events =
      .search "comment" "comment" (searchQuery c) ::
        (hits.map (fun hit => Event.unmarshal hit.Source) ++
          [.json 200 [("comments", .comments (Slice.appendAll none cs))]]) := by
  rw [searchHandler_events_hits S unmarshal c s _ ⟨hits.map some⟩ hres rfl,
    decodeHits_all_ok unmarshal hits cs none hok]
  rfl

/-- C1: for every `POST /comment` request, whatever its form fields, the
handler calls the store first (its first event is the index call, so nothing
is rejected before it) and writes one response fixed by the store's answer
alone: 201 with the body `result: "Comment added"` when the store reports no
error, 500 with the body `error: "Error indexing comment: " ++ text` when it
reports the error `text`.  In particular a request with empty `name` and
`content` against an accepting store is answered 201. -/
theorem postComment_response_decided_by_store {σ : Type} (S : Store σ) (now : Time)
    (c : Context) (s : σ) :
    (postCommentHandler S now c s).events.head? =
        some (.indexDoc "comment" "comment"
          ⟨c.PostForm "name", c.PostForm "content", now⟩) ∧
    responses (postCommentHandler S now c s).events =
        [match (S.Index s "comment" "comment"
            ⟨c.PostForm "name", c.PostForm "content", now⟩).1 with
          | none => (201, .obj [("result", .str "Comment added")])
          | some err => (500, .obj [("error", .str ("Error indexing comment: " ++ err))])] ∧
    responses (postCommentHandler rawStore now ⟨[("name", ""), ("content", "")], []⟩ []).events =
        [(201, .obj [("result", .str "Comment added")])] ∧
    responses (postCommentHandler rawStore now ⟨[], []⟩ []).events =
        [(201, .obj [("result", .str "Comment added")])] := by
  refine ⟨?_, ?_, rfl, rfl⟩
  · simp only [postCommentHandler, elasticIndexName, elasticTypeName]
    rcases S.Index s "comment" "comment" ⟨c.PostForm "name", c.PostForm "content", now⟩
      with ⟨_ | err, s'⟩ <;> rfl
  · simp only [postCommentHandler, elasticIndexName, elasticTypeName]
    rcases S.Index s "comment" "comment" ⟨c.PostForm "name", c.PostForm "content", now⟩
      with ⟨_ | err, s'⟩ <;> rfl

/-- C3 (the code at the failing input): a search that succeeds with zero hits
is answered 200 with the body `comments: null`, because the slice `comments`
is still the nil slice when it is encoded; the body is not `comments: []`.
The same holds for the loop on an empty hit list with any decoder. -/
theorem search_zero_hits_writes_null :
    responses (searchHandler rawStore toyUnmarshal ⟨[], [("query", "nothing")]⟩ []).events =
        [(200, .obj [("comments", .null)])] ∧
    responses (searchHandler rawStore toyUnmarshal ⟨[], [("query", "nothing")]⟩ []).events ≠
        [(200, .obj [("comments", .arr [])])] ∧
    (∀ unmarshal : RawMessage → Except String Comment,
        responses (decodeHits unmarshal [] none) = [(200, .obj [("comments", .null)])]) := by
  refine ⟨rfl, ?_, fun _ => rfl⟩
  intro h
  have h2 : responses (searchHandler rawStore toyUnmarshal
      ⟨[], [("query", "nothing")]⟩ []).events = [(200, .obj [("comments", .null)])] := rfl
  rw [h2] at h
  simp at h

/-- When the search succeeds with at least one hit and every hit decodes, with
`cs` the list of decoded hits, the handler decodes every hit once in the
store's order and writes the single response 200 whose `comments` value is the
array of the encoded `cs`, in the same order. -/
theorem search_nonempty_hits_in_order {σ : Type} (S : Store σ)
    (unmarshal : RawMessage → Except String Comment) (c : Context) (s : σ)
    (hits : List SearchHit) (cs : List Comment)
    (hres : S.Search s "comment" "comment" (searchQuery c) =
      .ok (SearchResult.ofHits hits))
    (hok : List.Forall₂ (fun hit cm => unmarshal hit.Source = .ok cm) hits cs)
    (hne : hits ≠ []) :
    cs.length = hits.length ∧
    decoded (searchHandler S unmarshal c s).events = hits.map SearchHit.Source ∧
    written (searchHandler S unmarshal c s).events =
      [(200, [("comments", .comments (some cs))])] ∧
    responses (searchHandler S unmarshal c s).events =
      [(200, .obj [("comments", .arr (cs.map Comment.marshal))])] := by
  have hrun := searchHandler_events_all_ok S unmarshal c s hits cs hres hok
  have hsl : Slice.appendAll (none : Slice Comment) cs = some cs := by
    rw [Slice.appendAll_nil_slice]
    cases hok with
    | nil => exact absurd rfl hne
    | cons _ _ => rfl
  rw [hsl] at hrun
  refine ⟨hok.length_eq.symm, ?_, ?_, ?_⟩
  · rw [hrun, decoded_search_cons]
    simp [decoded]
  · rw [hrun, written_search_cons]
    rfl
  · rw [hrun, responses_search_cons]
    rfl

/-- C5 (the code at the failing input): a search that succeeds with the empty
hit list, in which every hit decodes and whose list of decoded hits is the
empty list, is answered 200 with the nil slice as `comments`, on the wire
`comments: null`.  That is not the list of decoded hits, which would be the
empty array. -/
theorem search_empty_hit_list_is_not_a_list :
    List.Forall₂ (fun (hit : SearchHit) cm => toyUnmarshal hit.Source = .ok cm) [] [] ∧
    written (searchHandler rawStore toyUnmarshal ⟨[], [("query", "hello")]⟩ []).events =
      [(200, [("comments", .comments none)])] ∧
    written (searchHandler rawStore toyUnmarshal ⟨[], [("query", "hello")]⟩ []).events ≠
      [(200, [("comments", .comments (some []))])] ∧
    responses (searchHandler rawStore toyUnmarshal ⟨[], [("query", "hello")]⟩ []).events =
      [(200, .obj [("comments", .null)])] ∧
    responses (searchHandler rawStore toyUnmarshal ⟨[], [("query", "hello")]⟩ []).events ≠
      [(200, .obj [("comments", .arr (([] : List Comment).map Comment.marshal))])] := by
  refine ⟨List.Forall₂.nil, rfl, by decide, rfl, ?_⟩
  intro h
  have h2 : responses (searchHandler rawStore toyUnmarshal
      ⟨[], [("query", "hello")]⟩ []).events = [(200, .obj [("comments", .null)])] := rfl
  rw [h2] at h
  simp at h

/-- C6: when the store search itself fails with the error `text`, the handler
decodes no hit and writes the single response 500 with the body `error: "Error
searching comments: " ++ text`.  That message differs from every message a hit
decoding failure produces, and the response differs from the response of every
request whose search succeeded, so the two failures are told apart by the
response. -/
theorem search_store_error_response {σ : Type} (S : Store σ)
    (unmarshal : RawMessage → Except String Comment) (c : Context) (s : σ) (err : String)
    (hres : S.Search s "comment" "comment" (searchQuery c) = .error err) :
    responses (searchHandler S unmarshal c s).events =
      [(500, .obj [("error", .str ("Error searching comments: " ++ err))])] ∧
    decoded (searchHandler S unmarshal c s).events = [] ∧
    (∀ e : String,
      "Error searching comments: " ++ err ≠ "Error unmarshalling search result: " ++ e) ∧
    (∀ {τ : Type} (S2 : Store τ) (u2 : RawMessage → Except String Comment) (c2 : Context)
        (s2 : τ) (res2 : SearchResult),
      S2.Search s2 "comment" "comment" (searchQuery c2) = .ok res2 →
      responses (searchHandler S2 u2 c2 s2).events ≠
        responses (searchHandler S unmarshal c s).events) := by
  have hrun := searchHandler_events_error S unmarshal c s err hres
  have hresp : responses (searchHandler S unmarshal c s).events =
      [(500, .obj [("error", .str ("Error searching comments: " ++ err))])] := by
    rw [hrun]; rfl
  refine ⟨hresp, by rw [hrun]; rfl, fun e => search_error_ne_unmarshal_error err e, ?_⟩
  intro τ S2 u2 c2 s2 res2 hres2
  rw [hresp]
  cases hh : res2.Hits with
  | none =>
    rw [searchHandler_events_nil_hits S2 u2 c2 s2 res2 hres2 hh]
    simp [responses, Event.response]
  | some hs =>
    rw [searchHandler_events_hits S2 u2 c2 s2 res2 hs hres2 hh]
    rcases hit_pointers_cases u2 hs.Hits with ⟨hits, cs, hps, hcs⟩ |
      ⟨pre, bad, post, e, hps, hpre, hb⟩ | ⟨pre, post, hps, hpre⟩
    · rw [hps, decodeHits_all_ok u2 hits cs none hcs, responses_search_cons]
      simp [responses, Event.response, StatusOK]
    · rw [hps, decodeHits_first_bad u2 pre bad post e none hpre hb, responses_search_cons]
      intro h
      have h2 : "Error unmarshalling search result: " ++ e =
          "Error searching comments: " ++ err := by
        simpa [responses, Event.response, H.marshal, Value.marshal,
          StatusInternalServerError] using h
      exact search_error_ne_unmarshal_error err e h2.symm
    · rw [hps, decodeHits_nil_entry u2 pre post none hpre, responses_search_cons]
      simp [responses, Event.response]

/-- Witness for C6: a search against an unreachable store. -/
theorem search_store_error_response_witness :
    responses (searchHandler downStore toyUnmarshal ⟨[], [("query", "hello")]⟩ ()).events =
      [(500, .obj [("error", .str ("Error searching comments: " ++ "connection refused"))])] ∧
    decoded (searchHandler downStore toyUnmarshal ⟨[], [("query", "hello")]⟩ ()).events = [] ∧
    (∀ e : String,
      "Error searching comments: " ++ "connection refused" ≠
        "Error unmarshalling search result: " ++ e) ∧
    (∀ {τ : Type} (S2 : Store τ) (u2 : RawMessage → Except String Comment) (c2 : Context)
        (s2 : τ) (res2 : SearchResult),
      S2.Search s2 "comment" "comment" (searchQuery c2) = .ok res2 →
      responses (searchHandler S2 u2 c2 s2).events ≠
        responses (searchHandler downStore toyUnmarshal ⟨[], [("query", "hello")]⟩ ()).events) :=
  search_store_error_response downStore toyUnmarshal ⟨[], [("query", "hello")]⟩ ()
    "connection refused" rfl

/-! ## Index bootstrap -/

/-- C7: in every store state where the existence check reports that the index
`comment` exists, bootstrap makes the existence check and nothing else (no
create-index call), does not fail, and leaves the store state as it was.
Consequently, over a store in which an acknowledged creation makes the index
exist, a second bootstrap run after a successful first one makes no
create-index call and succeeds. -/
theorem bootstrap_idempotent {σ : Type} (S : Store σ) (s : σ) :
    (S.IndexExists s "comment" = .ok true →
      (bootstrap S s).events = [.indexExists "comment"] ∧
      fatalMsg (bootstrap S s).events = none ∧
      (bootstrap S s).store = s) ∧
    ((∀ t t', S.CreateIndex t "comment" = (.ok ⟨true⟩, t') →
        S.IndexExists t' "comment" = .ok true) →
      fatalMsg (bootstrap S s).events = none →
      (bootstrap S (bootstrap S s).store).events = [.indexExists "comment"] ∧
      ((bootstrap S (bootstrap S s).store).events.filter Event.isCreateIndex) = [] ∧
      fatalMsg (bootstrap S (bootstrap S s).store).events = none ∧
      (bootstrap S (bootstrap S s).store).store = (bootstrap S s).store) := by
  have first : ∀ t, S.IndexExists t "comment" = .ok true →
      (bootstrap S t).events = [.indexExists "comment"] ∧
      fatalMsg (bootstrap S t).events = none ∧ (bootstrap S t).store = t := by
    intro t ht
    have ht2 : S.IndexExists t elasticIndexName = .ok true := ht
    simp only [bootstrap, ht2]
    exact ⟨rfl, rfl, rfl⟩
  refine ⟨first s, ?_⟩
  intro hlaw hok
  have hex : S.IndexExists (bootstrap S s).store "comment" = .ok true := by
    cases h1 : S.IndexExists s "comment" with
    | error e =>
      have h1b : S.IndexExists s elasticIndexName = .error e := h1
      simp [bootstrap, h1b, fatalMsg] at hok
    | ok found =>
      cases found with
      | true => rw [(first s h1).2.2]; exact h1
      | false =>
        have h1b : S.IndexExists s elasticIndexName = .ok false := h1
        rcases h2 : S.CreateIndex s "comment" with ⟨r, s'⟩
        have h2b : S.CreateIndex s elasticIndexName = (r, s') := h2
        cases r with
        | error e => simp [bootstrap, h1b, h2b, fatalMsg] at hok
        | ok cr =>
          rcases cr with ⟨ack⟩
          cases ack with
          | false => simp [bootstrap, h1b, h2b, fatalMsg] at hok
          | true =>
            have hst : (bootstrap S s).store = s' := by simp [bootstrap, h1b, h2b]
            rw [hst]
            exact hlaw s s' h2
  obtain ⟨he, hf, hs⟩ := first _ hex
  exact ⟨he, by rw [he]; rfl, hf, hs⟩

/-- Witness for C7: over the in-memory store, bootstrap on a state that already
has the index is a no-op, and a second run after a first run that created the
index is a no-op too. -/
theorem bootstrap_idempotent_witness :
    ((bootstrap listStore ["comment"]).events = [.indexExists "comment"] ∧
      fatalMsg (bootstrap listStore ["comment"]).events = none ∧
      (bootstrap listStore ["comment"]).store = ["comment"]) ∧
    (bootstrap listStore []).events = [.indexExists "comment", .createIndex "comment"] ∧
    ((bootstrap listStore (bootstrap listStore []).store).events = [.indexExists "comment"] ∧
      ((bootstrap listStore (bootstrap listStore []).store).events.filter
        Event.isCreateIndex) = [] ∧
      fatalMsg (bootstrap listStore (bootstrap listStore []).store).events = none ∧
      (bootstrap listStore (bootstrap listStore []).store).store =
        (bootstrap listStore []).store) :=
  ⟨(bootstrap_idempotent listStore ["comment"]).1 rfl, rfl,
    (bootstrap_idempotent listStore []).2
      (by
        intro t t' h
        by_cases hm : "comment" ∈ t
        · simp [listStore, hm] at h
        · simp only [listStore, hm, if_false, Prod.mk.injEq] at h
          simp [listStore, ← h.2])
      rfl⟩

/-- The five ways bootstrap can run, each with its events and final store
state. -/
theorem bootstrap_cases {σ : Type} (S : Store σ) (s : σ) :
    (∃ e, S.IndexExists s "comment" = .error e ∧
      bootstrap S s =
        ⟨[.indexExists "comment", .fatal ("Error checking if index exists: " ++ e)], s⟩) ∨
    (S.IndexExists s "comment" = .ok true ∧
      bootstrap S s = ⟨[.indexExists "comment"], s⟩) ∨
    (∃ e s', S.IndexExists s "comment" = .ok false ∧
      S.CreateIndex s "comment" = (.error e, s') ∧
      bootstrap S s =
        ⟨[.indexExists "comment", .createIndex "comment",
          .fatal ("Error creating index: " ++ e)], s'⟩) ∨
    (∃ s', S.IndexExists s "comment" = .ok false ∧
      S.CreateIndex s "comment" = (.ok ⟨false⟩, s') ∧
      bootstrap S s =
        ⟨[.indexExists "comment", .createIndex "comment",
          .fatal "Index creation not acknowledged"], s'⟩) ∨
    (∃ s', S.IndexExists s "comment" = .ok false ∧
      S.CreateIndex s "comment" = (.ok ⟨true⟩, s') ∧
      bootstrap S s = ⟨[.indexExists "comment", .createIndex "comment"], s'⟩) := by
  cases h1 : S.IndexExists s "comment" with
  | error e =>
    have h1b : S.IndexExists s elasticIndexName = .error e := h1
    refine Or.inl ⟨e, rfl, ?_⟩
    simp only [bootstrap, h1b]; rfl
  | ok found =>
    cases found with
    | true =>
      have h1b : S.IndexExists s elasticIndexName = .ok true := h1
      refine Or.inr (Or.inl ⟨rfl, ?_⟩)
      simp only [bootstrap, h1b]; rfl
    | false =>
      have h1b : S.IndexExists s elasticIndexName = .ok false := h1
      rcases h2 : S.CreateIndex s "comment" with ⟨r, s2⟩
      have h2b : S.CreateIndex s elasticIndexName = (r, s2) := h2
      cases r with
      | error e =>
        refine Or.inr (Or.inr (Or.inl ⟨e, s2, rfl, rfl, ?_⟩))
        simp only [bootstrap, h1b, h2b]; rfl
      | ok cr =>
        rcases cr with ⟨ack⟩
        cases ack with
        | false =>
          refine Or.inr (Or.inr (Or.inr (Or.inl ⟨s2, rfl, rfl, ?_⟩)))
          simp only [bootstrap, h1b, h2b]; rfl
        | true =>
          refine Or.inr (Or.inr (Or.inr (Or.inr ⟨s2, rfl, rfl, ?_⟩)))
          simp only [bootstrap, h1b, h2b]; rfl

/-- C8: bootstrap completes without a fatal error exactly when the existence
check succeeds and either reports the index present or reports it absent and
the create-index call succeeds and is acknowledged.  When it completes, either
the index was reported present and nothing else was done, or the create-index
call was made and the store is in the state that the acknowledged creation
left; so over a store in which an acknowledged creation makes the index exist,
the index exists in the final state.  An existence-check error, a create-index
error and an unacknowledged creation each end in `log.Fatalf` with their own
message; the existence check is made once and the create-index call at most
once (no retry).  When bootstrap is fatal, `main` stops there: its events are
the client creation followed by the bootstrap events, ending in the fatal one,
and no route is registered or served.  When bootstrap completes, `main`
registers and serves the routes after the bootstrap events.  A client creation
error is fatal before bootstrap starts. -/
theorem bootstrap_completes_iff {σ : Type} (S : Store σ) (s : σ)
    (templates : Option String) :
    (fatalMsg (bootstrap S s).events = none ↔
      (S.IndexExists s "comment" = .ok true ∨
        (S.IndexExists s "comment" = .ok false ∧
          ∃ s', S.CreateIndex s "comment" = (.ok ⟨true⟩, s')))) ∧
    (S.IndexExists s "comment" = .ok true →
      (bootstrap S s).events = [.indexExists "comment"] ∧ (bootstrap S s).store = s) ∧
    (∀ s', S.IndexExists s "comment" = .ok false →
      S.CreateIndex s "comment" = (.ok ⟨true⟩, s') →
      (bootstrap S s).events = [.indexExists "comment", .createIndex "comment"] ∧
      (bootstrap S s).store = s') ∧
    ((∀ t t', S.CreateIndex t "comment" = (.ok ⟨true⟩, t') →
        S.IndexExists t' "comment" = .ok true) →
      fatalMsg (bootstrap S s).events = none →
      S.IndexExists (bootstrap S s).store "comment" = .ok true) ∧
    (∀ err, S.IndexExists s "comment" = .error err →
      (bootstrap S s).events =
        [.indexExists "comment", .fatal ("Error checking if index exists: " ++ err)] ∧
      (bootstrap S s).store = s) ∧
    (∀ err s', S.IndexExists s "comment" = .ok false →
      S.CreateIndex s "comment" = (.error err, s') →
      (bootstrap S s).events =
        [.indexExists "comment", .createIndex "comment",
         .fatal ("Error creating index: " ++ err)] ∧
      (bootstrap S s).store = s') ∧
    (∀ s', S.IndexExists s "comment" = .ok false →
      S.CreateIndex s "comment" = (.ok ⟨false⟩, s') →
      (bootstrap S s).events =
        [.indexExists "comment", .createIndex "comment",
         .fatal "Index creation not acknowledged"] ∧
      (bootstrap S s).store = s') ∧
    ((bootstrap S s).events.filter Event.isIndexExists).length = 1 ∧
    ((bootstrap S s).events.filter Event.isCreateIndex).length ≤ 1 ∧
    (∀ msg, fatalMsg (bootstrap S s).events = some msg →
      (main S none templates s).events =
        .newClient "http://localhost:9200" :: (bootstrap S s).events ∧
      (main S none templates s).events.getLast? = some (.fatal msg) ∧
      ∀ e ∈ (main S none templates s).events, e.isServing = false) ∧
    (fatalMsg (bootstrap S s).events = none →
      (main S none none s).events =
        .newClient "http://localhost:9200" :: (bootstrap S s).events ++
          [.route "POST" "/comment", .route "GET" "/search", .loadHTMLGlob "templates/*",
           .route "GET" "/", .run ":8082"] ∧
      (main S none none s).store = (bootstrap S s).store) ∧
    (∀ err, (main S (some err) templates s).events =
      [.newClient "http://localhost:9200",
       .fatal ("Error creating Elasticsearch client: " ++ err)]) := by
  have hmainF : ∀ msg, fatalMsg (bootstrap S s).events = some msg →
      (main S none templates s).events =
        .newClient "http://localhost:9200" :: (bootstrap S s).events := by
    intro msg hmsg
    simp only [main, hmsg]
  have hmainOk : fatalMsg (bootstrap S s).events = none →
      (main S none none s).events =
        .newClient "http://localhost:9200" :: (bootstrap S s).events ++
          [.route "POST" "/comment", .route "GET" "/search", .loadHTMLGlob "templates/*",
           .route "GET" "/", .run ":8082"] ∧
      (main S none none s).store = (bootstrap S s).store := by
    intro hnone
    constructor <;> simp [main, hnone]
  rcases bootstrap_cases S s with ⟨e, h1, hb⟩ | ⟨h1, hb⟩ | ⟨e, s2, h1, h2, hb⟩ |
    ⟨s2, h1, h2, hb⟩ | ⟨s2, h1, h2, hb⟩
  · refine ⟨?_, ?_, ?_, ?_, ?_, ?_, ?_, ?_, ?_, ?_, hmainOk, fun _ => rfl⟩
    · rw [hb, h1]; simp [fatalMsg]
    · intro h; rw [h1] at h; cases h
    · intro s' h; rw [h1] at h; cases h
    · intro _ h; rw [hb] at h; simp [fatalMsg] at h
    · intro err h
      rw [h1] at h
      cases h
      rw [hb]
      exact ⟨rfl, rfl⟩
    · intro err s' h; rw [h1] at h; cases h
    · intro s' h; rw [h1] at h; cases h
    · rw [hb]; rfl
    · rw [hb]; simp [Event.isCreateIndex]
    · intro msg hmsg
      rw [hmainF msg hmsg]
      rw [hb] at hmsg ⊢
      simp only [fatalMsg, List.findSome?_cons, List.findSome?_nil, Option.some.injEq] at hmsg
      subst hmsg
      exact ⟨rfl, rfl, by simp [Event.isServing]⟩
  · refine ⟨?_, ?_, ?_, ?_, ?_, ?_, ?_, ?_, ?_, ?_, hmainOk, fun _ => rfl⟩
    · rw [hb, h1]; simp [fatalMsg]
    · intro _; rw [hb]; exact ⟨rfl, rfl⟩
    · intro s' h; rw [h1] at h; cases h
    · intro _ _; rw [hb]; exact h1
    · intro err h; rw [h1] at h; cases h
    · intro err s' h; rw [h1] at h; cases h
    · intro s' h; rw [h1] at h; cases h
    · rw [hb]; rfl
    · rw [hb]; simp [Event.isCreateIndex]
    · intro msg hmsg
      rw [hb] at hmsg
      simp [fatalMsg] at hmsg
  · refine ⟨?_, ?_, ?_, ?_, ?_, ?_, ?_, ?_, ?_, ?_, hmainOk, fun _ => rfl⟩
    · rw [hb, h1, h2]; simp [fatalMsg]
    · intro h; rw [h1] at h; cases h
    · intro s' _ h; rw [h2] at h; simp at h
    · intro _ h; rw [hb] at h; simp [fatalMsg] at h
    · intro err h; rw [h1] at h; cases h
    · intro err s' _ h
      rw [h2] at h
      simp only [Prod.mk.injEq, Except.error.injEq] at h
      rw [hb, ← h.1, ← h.2]
      exact ⟨rfl, rfl⟩
    · intro s' _ h; rw [h2] at h; simp at h
    · rw [hb]; rfl
    · rw [hb]; simp [Event.isCreateIndex]
    · intro msg hmsg
      rw [hmainF msg hmsg]
      rw [hb] at hmsg ⊢
      simp only [fatalMsg, List.findSome?_cons, List.findSome?_nil, Option.some.injEq] at hmsg
      subst hmsg
      exact ⟨rfl, rfl, by simp [Event.isServing]⟩
  · refine ⟨?_, ?_, ?_, ?_, ?_, ?_, ?_, ?_, ?_, ?_, hmainOk, fun _ => rfl⟩
    · rw [hb, h1, h2]; simp [fatalMsg]
    · intro h; rw [h1] at h; cases h
    · intro s' _ h; rw [h2] at h; simp at h
    · intro _ h; rw [hb] at h; simp [fatalMsg] at h
    · intro err h; rw [h1] at h; cases h
    · intro err s' _ h; rw [h2] at h; simp at h
    · intro s' _ h
      rw [h2] at h
      simp only [Prod.mk.injEq] at h
      rw [hb, ← h.2]
      exact ⟨rfl, rfl⟩
    · rw [hb]; rfl
    · rw [hb]; simp [Event.isCreateIndex]
    · intro msg hmsg
      rw [hmainF msg hmsg]
      rw [hb] at hmsg ⊢
      simp only [fatalMsg, List.findSome?_cons, List.findSome?_nil, Option.some.injEq] at hmsg
      subst hmsg
      exact ⟨rfl, rfl, by simp [Event.isServing]⟩
  · refine ⟨?_, ?_, ?_, ?_, ?_, ?_, ?_, ?_, ?_, ?_, hmainOk, fun _ => rfl⟩
    · rw [hb, h1, h2]; simp [fatalMsg]
    · intro h; rw [h1] at h; cases h
    · intro s' _ h
      rw [h2] at h
      simp only [Prod.mk.injEq] at h
      rw [hb, ← h.2]
      exact ⟨rfl, rfl⟩
    · intro hlaw _; rw [hb]; exact hlaw s s2 h2
    · intro err h; rw [h1] at h; cases h
    · intro err s' _ h; rw [h2] at h; simp at h
    · intro s' _ h; rw [h2] at h; simp at h
    · rw [hb]; rfl
    · rw [hb]; simp [Event.isCreateIndex]
    · intro msg hmsg
      rw [hb] at hmsg
      simp [fatalMsg] at hmsg

/-- Witness for C8: a store that is down at the existence check, one that
refuses the creation and one that does not acknowledge it each end bootstrap in
its fatal message, and `main` then serves no route; over the in-memory store
the creation is acknowledged, bootstrap completes with the create-index call
made, the index exists in the final state and `main` goes on to serve. -/
theorem bootstrap_completes_iff_witness :
    ((bootstrap downStore ()).events =
      [.indexExists "comment",
       .fatal ("Error checking if index exists: " ++ "connection refused")] ∧
      (bootstrap downStore ()).store = ()) ∧
    ((bootstrap readOnlyStore ()).events =
      [.indexExists "comment", .createIndex "comment",
       .fatal ("Error creating index: " ++ "cluster_block_exception")] ∧
      (bootstrap readOnlyStore ()).store = ()) ∧
    ((bootstrap slowStore ()).events =
      [.indexExists "comment", .createIndex "comment",
       .fatal "Index creation not acknowledged"] ∧
      (bootstrap slowStore ()).store = ()) ∧
    (∀ e ∈ (main slowStore none none ()).events, e.isServing = false) ∧
    fatalMsg (bootstrap listStore []).events = none ∧
    ((bootstrap listStore []).events = [.indexExists "comment", .createIndex "comment"] ∧
      (bootstrap listStore []).store = ["comment"]) ∧
    ((bootstrap listStore ["comment"]).events = [.indexExists "comment"] ∧
      (bootstrap listStore ["comment"]).store = ["comment"]) ∧
    listStore.IndexExists (bootstrap listStore []).store "comment" = .ok true ∧
    ((main listStore none none []).events =
      .newClient "http://localhost:9200" :: (bootstrap listStore []).events ++
        [.route "POST" "/comment", .route "GET" "/search", .loadHTMLGlob "templates/*",
         .route "GET" "/", .run ":8082"] ∧
      (main listStore none none []).store = (bootstrap listStore []).store) :=
  have hlist := bootstrap_completes_iff listStore [] none
  have hnone : fatalMsg (bootstrap listStore []).events = none :=
    hlist.1.mpr (Or.inr ⟨rfl, ["comment"], rfl⟩)
  ⟨(bootstrap_completes_iff downStore () none).2.2.2.2.1 "connection refused" rfl,
   (bootstrap_completes_iff readOnlyStore () none).2.2.2.2.2.1
      "cluster_block_exception" () rfl rfl,
   (bootstrap_completes_iff slowStore () none).2.2.2.2.2.2.1 () rfl rfl,
   ((bootstrap_completes_iff slowStore () none).2.2.2.2.2.2.2.2.2.1
      "Index creation not acknowledged" rfl).2.2,
   hnone,
   hlist.2.2.1 ["comment"] rfl rfl,
   (bootstrap_completes_iff listStore ["comment"] none).2.1 rfl,
   hlist.2.2.2.1
      (by
        intro t t' h
        by_cases hm : "comment" ∈ t
        · simp [listStore, hm] at h
        · simp only [listStore, hm, if_false, Prod.mk.injEq] at h
          simp [listStore, ← h.2])
      hnone,
   hlist.2.2.2.2.2.2.2.2.2.2.1 hnone⟩

/-! ## Both handlers -/

end Comments
